import Mathlib

/-!
Verification development for the Spend-Wise-Buddy personal-finance tracker
(src/tracker_app_final.py).

The SQLite tables are embedded as Lean lists of rows, and each interactive
operation of the program becomes a pure state-transition function on a `DB`
value.  Interactive prompts (confirmation questions, typed-in amounts) become
explicit parameters; the input-validation loops of the source, which re-prompt
until the user types an acceptable value, become rejecting results carrying an
unchanged state.

Modelling conventions, applied throughout:
* Monetary amounts (Python `float` / SQLite `REAL`) are modelled as exact
  rationals; floating-point rounding is outside the model.
* Strings are modelled over their ASCII fragment: `str.lower`/`LOWER` lower
  only the letters A-Z, `str.strip`/`TRIM` drop the usual whitespace
  characters.  All category and goal names the program compares are ASCII.
* `datetime.strptime(s, "%Y-%m-%d")` is modelled after CPython's `_strptime`
  implementation: the format compiles to the regular expression
  (\d\d\d\d)-(1[0-2]|0[1-9]|[1-9])-(3[01]|[12]\d|0[1-9]|[1-9]) matched against
  the whole string, after which `datetime(y, m, d)` checks 1 <= y <= 9999 and
  1 <= d <= days-in-month.  Note the month and the day may be a SINGLE digit.
* SQLite's `strftime('%Y-%m', d)` yields NULL (here `none`) unless `d` is in
  the strict `YYYY-MM-DD` form with two-digit month and day; on such strings
  it returns the 7-character year-month truncation.  (SQLite's rollover of
  out-of-range days such as `2024-02-31` is not modelled; theorems about the
  aggregation queries assume the stored dates are real canonical dates, which
  is what every reachable store that was filled through the validated input
  paths with canonically formatted dates contains.)
-/

/-! ### Characters and strings -/

/-- ASCII decimal digit test (the `\d` of the strptime regex, ASCII part). -/
def isDigit (c : Char) : Bool := 48 ≤ c.toNat && c.toNat ≤ 57

/-- Numeric value of an ASCII digit character. -/
def dval (c : Char) : Nat := c.toNat - 48

/-- Lower-case an ASCII letter; other characters unchanged (the behaviour of
SQLite `LOWER` and of Python `str.lower` on the ASCII fragment). -/
def asciiLowerChar (c : Char) : Char :=
  if 65 ≤ c.toNat && c.toNat ≤ 90 then Char.ofNat (c.toNat + 32) else c

/-- SQLite `LOWER` (ASCII). -/
def sqlLower (s : String) : String := ⟨s.data.map asciiLowerChar⟩

/-- Python `str.lower` (ASCII fragment; same action as SQLite `LOWER` there). -/
def pyLower (s : String) : String := ⟨s.data.map asciiLowerChar⟩

/-- The whitespace characters Python `str.strip` removes (ASCII). -/
def isPySpace (c : Char) : Bool := c == ' ' || c == '\t' || c == '\n' || c == '\r'

/-- Python `str.strip`. -/
def pyStrip (s : String) : String :=
  ⟨((s.data.dropWhile isPySpace).reverse.dropWhile isPySpace).reverse⟩

/-- SQLite `TRIM` (drops spaces only). -/
def sqlTrim (s : String) : String :=
  ⟨((s.data.dropWhile (fun c => c == ' ')).reverse.dropWhile (fun c => c == ' ')).reverse⟩

/-- The program's pervasive input normalisation `.strip().lower()`. -/
def pyNorm (s : String) : String := pyLower (pyStrip s)

/-! ### Dates: the strptime model behind `validate_date` -/

/-- Days in a month of the (proleptic) Gregorian calendar, as Python's
`datetime` uses for constructor validation. -/
def daysInMonth (y m : Nat) : Nat :=
  if m == 2 then (if y % 4 == 0 && (!(y % 100 == 0) || y % 400 == 0) then 29 else 28)
  else if m == 4 || m == 6 || m == 9 || m == 11 then 30 else 31

/-- One-digit month alternative of the strptime regex: `[1-9]`. -/
def monthLang1 (c : Char) : Bool := isDigit c && 1 ≤ dval c

/-- Two-digit month alternatives of the strptime regex: `1[0-2]|0[1-9]`. -/
def monthLang2 (c1 c2 : Char) : Bool :=
  (c1 == '1' && (c2 == '0' || c2 == '1' || c2 == '2')) ||
  (c1 == '0' && isDigit c2 && 1 ≤ dval c2)

/-- One-digit day alternative of the strptime regex: `[1-9]`. -/
def dayLang1 (c : Char) : Bool := isDigit c && 1 ≤ dval c

/-- Two-digit day alternatives of the strptime regex: `3[01]|[12]\d|0[1-9]`. -/
def dayLang2 (c1 c2 : Char) : Bool :=
  (c1 == '3' && (c2 == '0' || c2 == '1')) ||
  ((c1 == '1' || c1 == '2') && isDigit c2) ||
  (c1 == '0' && isDigit c2 && 1 ≤ dval c2)

/-- The checks of the `datetime(y, m, d)` constructor that are not already
guaranteed by the month/day regex languages: `MINYEAR = 1 <= y` (`y <= 9999`
holds because the year has four digits) and a day within the month. -/
def dtValid (y m d : Nat) : Bool := 1 ≤ y && 1 ≤ d && d ≤ daysInMonth y m

/-- Parse the day part (the characters after the second hyphen) against month
`m` of year `y`. -/
def parseDay (y m : Nat) (ds : List Char) : Option (Nat × Nat × Nat) :=
  match ds with
  | [d1] =>
    if dayLang1 d1 && dtValid y m (dval d1) then some (y, m, dval d1) else none
  | [d1, d2] =>
    if dayLang2 d1 d2 && dtValid y m (10 * dval d1 + dval d2) then
      some (y, m, 10 * dval d1 + dval d2)
    else none
  | _ => none

/-- Parse `month "-" day` (the characters after the first hyphen). -/
def parseMonthDay (y : Nat) (l : List Char) : Option (Nat × Nat × Nat) :=
  match l with
  | m1 :: c :: rest =>
    if c == '-' then
      if monthLang1 m1 then parseDay y (dval m1) rest else none
    else
      match rest with
      | c2 :: rest2 =>
        if c2 == '-' then
          if monthLang2 m1 c then parseDay y (10 * dval m1 + dval c) rest2 else none
        else none
      | [] => none
  | _ => none

/-- `datetime.strptime(s, "%Y-%m-%d")`: four year digits, a hyphen, then the
month and day parts; returns the parsed (year, month, day) on success. -/
def parseYMD (l : List Char) : Option (Nat × Nat × Nat) :=
  match l with
  | y1 :: y2 :: y3 :: y4 :: c :: rest =>
    if c == '-' && isDigit y1 && isDigit y2 && isDigit y3 && isDigit y4 then
      parseMonthDay (1000 * dval y1 + 100 * dval y2 + 10 * dval y3 + dval y4) rest
    else none
  | _ => none

/-- `validate_date` of the source: true iff `strptime(s, "%Y-%m-%d")` does not
raise. -/
def validate_date (s : String) : Bool := (parseYMD s.data).isSome

/-- A real Gregorian calendar date (year at least 1, month 1..12, day within
the month). -/
def isRealDate (y m d : Nat) : Bool :=
  1 ≤ y && 1 ≤ m && m ≤ 12 && 1 ≤ d && d ≤ daysInMonth y m

/-- Written from the spec's words: the canonical calendar-date format, exactly
a 4-digit year, 2-digit month and 2-digit day separated by hyphens, denoting a
real calendar date. -/
def specCanonicalDate (s : String) : Bool :=
  match s.data with
  | [y1, y2, y3, y4, h1, m1, m2, h2, d1, d2] =>
    h1 == '-' && h2 == '-' &&
    isDigit y1 && isDigit y2 && isDigit y3 && isDigit y4 &&
    isDigit m1 && isDigit m2 && isDigit d1 && isDigit d2 &&
    isRealDate (1000 * dval y1 + 100 * dval y2 + 10 * dval y3 + dval y4)
      (10 * dval m1 + dval m2) (10 * dval d1 + dval d2)
  | _ => false

/-- Written from the amended claim: the day part as a 1- or 2-digit number
making a real date with the already-parsed year and month. -/
def specRelaxedDay (y m : Nat) (ds : List Char) : Bool :=
  match ds with
  | [d1] => isDigit d1 && isRealDate y m (dval d1)
  | [d1, d2] => isDigit d1 && isDigit d2 && isRealDate y m (10 * dval d1 + dval d2)
  | _ => false

/-- Written from the amended claim: `month "-" day` with a 1- or 2-digit
month number. -/
def specRelaxedMonthDay (y : Nat) (l : List Char) : Bool :=
  match l with
  | m1 :: c :: rest =>
    if c == '-' then
      isDigit m1 && specRelaxedDay y (dval m1) rest
    else
      match rest with
      | c2 :: rest2 =>
        if c2 == '-' then
          isDigit m1 && isDigit c && specRelaxedDay y (10 * dval m1 + dval c) rest2
        else false
      | [] => false
  | _ => false

/-- Written from the amended claim: a 4-digit year, a 1- or 2-digit month and
a 1- or 2-digit day separated by hyphens, denoting a real calendar date. -/
def specRelaxedDate (s : String) : Bool :=
  match s.data with
  | y1 :: y2 :: y3 :: y4 :: c :: rest =>
    c == '-' && isDigit y1 && isDigit y2 && isDigit y3 && isDigit y4 &&
    specRelaxedMonthDay (1000 * dval y1 + 100 * dval y2 + 10 * dval y3 + dval y4) rest
  | _ => false

/-! ### The SQLite strftime year-month truncation -/

/-- The character for a decimal digit value. -/
def digitChar (n : Nat) : Char :=
  match n with
  | 0 => '0' | 1 => '1' | 2 => '2' | 3 => '3' | 4 => '4'
  | 5 => '5' | 6 => '6' | 7 => '7' | 8 => '8' | _ => '9'

/-- Zero-padded two-digit decimal rendering (of `n % 100`). -/
def pad2 (n : Nat) : List Char := [digitChar (n / 10 % 10), digitChar (n % 10)]

/-- Zero-padded four-digit decimal rendering (of `n % 10000`). -/
def pad4 (n : Nat) : List Char :=
  [digitChar (n / 1000 % 10), digitChar (n / 100 % 10), digitChar (n / 10 % 10),
    digitChar (n % 10)]

/-- `datetime.now().strftime("%Y-%m")`: the year-month reference key. -/
def formatYM (y m : Nat) : String := ⟨pad4 y ++ '-' :: pad2 m⟩

/-- SQLite `strftime('%Y-%m', s)` on a date-only string: `none` (NULL) unless
`s` has the strict `YYYY-MM-DD` shape with month 01..12 and day 01..31;
otherwise the 7-character truncation.  (Rollover of days beyond the month's
length is not modelled; see the file comment.) -/
def strftimeYM (s : String) : Option String :=
  match s.data with
  | [y1, y2, y3, y4, h1, m1, m2, h2, d1, d2] =>
    if h1 == '-' && h2 == '-' &&
        isDigit y1 && isDigit y2 && isDigit y3 && isDigit y4 &&
        isDigit m1 && isDigit m2 && isDigit d1 && isDigit d2 &&
        1 ≤ 10 * dval m1 + dval m2 && 10 * dval m1 + dval m2 ≤ 12 &&
        1 ≤ 10 * dval d1 + dval d2 && 10 * dval d1 + dval d2 ≤ 31 then
      some ⟨[y1, y2, y3, y4, h1, m1, m2]⟩
    else none
  | _ => none

/-- The SQL comparison `strftime('%Y-%m', d) = key`: false on NULL. -/
def monthKeyMatches (key : String) (d : String) : Bool :=
  match strftimeYM d with
  | some k => k == key
  | none => false

/-- The first day of the month after (y, m), as a date string. -/
def firstOfNextMonth (y m : Nat) : String :=
  if m == 12 then ⟨pad4 (y + 1) ++ '-' :: (pad2 1 ++ '-' :: pad2 1)⟩
  else ⟨pad4 y ++ '-' :: (pad2 (m + 1) ++ '-' :: pad2 1)⟩

/-! ### The database state -/

/-- A row of `users_expenses`. -/
structure ExpenseRow where
  id : Nat
  date : String
  category : String
  amount : ℚ
deriving DecidableEq

/-- A row of `users_incomes`. -/
structure IncomeRow where
  id : Nat
  source : String
  amount : ℚ
  date : String
deriving DecidableEq

/-- A row of `income_categories` or `expense_categories` (the description
column is nullable). -/
structure CatRow where
  name : String
  descr : Option String
deriving DecidableEq

/-- A row of `budget_calculator` (the category type is stored as the string
the program validated against {income, expense}). -/
structure BudgetRow where
  name : String
  value : ℚ
  ctype : String
deriving DecidableEq

/-- A row of `saving_goals`. -/
structure GoalRow where
  id : Nat
  name : String
  startDate : String
  finishDate : String
  target : ℚ
  saved : ℚ
deriving DecidableEq

/-- The whole store.  The `next…Id` fields model the AUTOINCREMENT counters
of `sqlite_sequence`. -/
structure DB where
  expenses : List ExpenseRow
  incomes : List IncomeRow
  budgets : List BudgetRow
  incomeCats : List CatRow
  expenseCats : List CatRow
  goals : List GoalRow
  nextExpenseId : Nat
  nextIncomeId : Nat
  nextGoalId : Nat
deriving DecidableEq

/-- Outcomes the operations report to the menu layer. -/
inductive Res where
  | ok
  | invalidDate
  | invalidAmount
  | invalidId
  | invalidType
  | duplicate
  | emptyName
  | notFound
  | budgetNotSet
  | notRecorded
  | categoryNotAdded
  | nothingToDelete
  | cancelled
  | congrats
  | viewed
  | invalidRange
deriving DecidableEq

/-! ### Category and budget operations -/

/-- `existing_category`: normalises the name and looks it up (via `LOWER`)
in the table selected by the type string (any string other than income
selects the expense table, as in the source's else-branch). -/
def existing_category (db : DB) (category_name category_type : String) : Bool :=
  let key := pyNorm category_name
  if category_type == "income" then
    db.incomeCats.any (fun r => sqlLower r.name == key)
  else
    db.expenseCats.any (fun r => sqlLower r.name == key)

/-- `add_category`: plain insert into the table selected by the type, with a
NULL description and no duplicate or emptiness check. -/
def add_category (db : DB) (category_name category_type : String) : DB :=
  if category_type == "income" then
    { db with incomeCats := db.incomeCats ++ [⟨category_name, none⟩] }
  else
    { db with expenseCats := db.expenseCats ++ [⟨category_name, none⟩] }

/-- The `INSERT OR REPLACE` of `set_budget_for_category`: the table's primary
key is the name alone, so any row under the name is replaced. -/
def budgetUpsert (db : DB) (key : String) (v : ℚ) (ctype : String) : DB :=
  { db with budgets := db.budgets.filter (fun b => !(b.name == key)) ++ [⟨key, v, ctype⟩] }

/-- `set_budget_for_category`.  The interactive do-you-want-to-create-it
question becomes the `confirm_add` parameter. -/
def set_budget_for_category (db : DB) (category_name : String) (budget_value : ℚ)
    (category_type : String) (confirm_add : Bool) : Res × DB :=
  let key := pyNorm category_name
  let ctype := pyNorm category_type
  if budget_value ≤ 0 then (.invalidAmount, db)
  else if !(ctype == "income" || ctype == "expense") then (.invalidType, db)
  else if existing_category db key ctype then (.ok, budgetUpsert db key budget_value ctype)
  else if confirm_add then (.ok, budgetUpsert (add_category db key ctype) key budget_value ctype)
  else (.budgetNotSet, db)

/-- `add_expense_category`: empty-name check, case-insensitive duplicate
check, then insert of the normalised name. -/
def add_expense_category (db : DB) (category_name : String) : Res × DB :=
  let key := pyNorm category_name
  if key == "" then (.emptyName, db)
  else if db.expenseCats.any (fun r => sqlLower r.name == key) then (.duplicate, db)
  else (.ok, { db with expenseCats := db.expenseCats ++ [⟨key, none⟩] })

/-- `add_income_category`: same shape against the income table, storing the
prompted description. -/
def add_income_category (db : DB) (category_name description : String) : Res × DB :=
  let key := pyNorm category_name
  if key == "" then (.emptyName, db)
  else if db.incomeCats.any (fun r => sqlLower r.name == key) then (.duplicate, db)
  else (.ok, { db with incomeCats := db.incomeCats ++ [⟨key, some description⟩] })

/-! ### Expense and income records -/

/-- `record_new_spending`: date validation, category existence (with the
offer to add it), the amount-positivity loop, then the insert. -/
def record_new_spending (db : DB) (date_of_spending type_of_spending : String)
    (amount_spent : ℚ) (confirm_add : Bool) : Res × DB :=
  if !(validate_date date_of_spending) then (.invalidDate, db)
  else
    let key := pyNorm type_of_spending
    let insertStep := fun (d : DB) =>
      if amount_spent ≤ 0 then (Res.invalidAmount, d)
      else (Res.ok,
        { d with
          expenses := d.expenses ++ [⟨d.nextExpenseId, date_of_spending, key, amount_spent⟩],
          nextExpenseId := d.nextExpenseId + 1 })
    if existing_category db key "expense" then insertStep db
    else if confirm_add then
      let step := add_expense_category db key
      if existing_category step.2 key "expense" then insertStep step.2
      else (.categoryNotAdded, step.2)
    else (.notRecorded, db)

/-- `record_an_income`: same shape against the income tables.  (Unlike the
expense path, the source does not re-check existence after offering to add
the category.) -/
def record_an_income (db : DB) (date_of_income source_of_income : String)
    (sum_of_income : ℚ) (confirm_add : Bool) (description : String) : Res × DB :=
  if !(validate_date date_of_income) then (.invalidDate, db)
  else
    let key := pyNorm source_of_income
    let insertStep := fun (d : DB) =>
      if sum_of_income ≤ 0 then (Res.invalidAmount, d)
      else (Res.ok,
        { d with
          incomes := d.incomes ++ [⟨d.nextIncomeId, key, sum_of_income, date_of_income⟩],
          nextIncomeId := d.nextIncomeId + 1 })
    if existing_category db key "income" then insertStep db
    else if confirm_add then insertStep (add_income_category db key description).2
    else (.notRecorded, db)

/-- `update_my_spending`: looks the expense up by id and overwrites its
amount.  The source reads the new amount with a numeric-only loop but,
unlike every other amount write, performs NO positivity check. -/
def update_my_spending (db : DB) (expense_ID_No : Nat) (new_spending_amount : ℚ) : Res × DB :=
  match db.expenses.find? (fun e => e.id == expense_ID_No) with
  | none => (.notFound, db)
  | some _ =>
    (.ok,
      { db with
        expenses := db.expenses.map (fun e =>
          if e.id == expense_ID_No then { e with amount := new_spending_amount } else e) })

/-- `update_my_income`: rejects id 0, then a missing id, then a non-positive
amount; otherwise overwrites the amount. -/
def update_my_income (db : DB) (income_ID_No : Nat) (new_income_amount : ℚ) : Res × DB :=
  if income_ID_No == 0 then (.invalidId, db)
  else
    match db.incomes.find? (fun i => i.id == income_ID_No) with
    | none => (.notFound, db)
    | some _ =>
      if new_income_amount ≤ 0 then (.invalidAmount, db)
      else
        (.ok,
          { db with
            incomes := db.incomes.map (fun i =>
              if i.id == income_ID_No then { i with amount := new_income_amount } else i) })

/-- The match condition of `delete_spending_type`'s SELECT and DELETE:
`LOWER(TRIM(type_of_spending)) = ?` against the normalised input. -/
def spendingTypeMatches (key : String) (e : ExpenseRow) : Bool :=
  sqlLower (sqlTrim e.category) == key

/-- `delete_spending_type`: empty-input check, then if any row matches the
normalised category and the user confirms, delete all matching rows. -/
def delete_spending_type (db : DB) (category_to_delete : String) (confirm : Bool) : Res × DB :=
  let key := pyNorm category_to_delete
  if key == "" then (.emptyName, db)
  else if (db.expenses.filter (spendingTypeMatches key)).isEmpty then (.nothingToDelete, db)
  else if confirm then
    (.ok, { db with expenses := db.expenses.filter (fun e => !(spendingTypeMatches key e)) })
  else (.cancelled, db)

/-! ### Aggregation -/

/-- The income/expense/balance triple `income_expenses_summary` prints. -/
structure Summary where
  income : ℚ
  expenses : ℚ
  balance : ℚ
deriving DecidableEq

/-- The monthly branch of `income_expenses_summary`, with the `datetime.now()`
reference month passed in as (y, m): both sums filter on
`strftime('%Y-%m', date) = now.strftime("%Y-%m")`, and the balance is their
difference. -/
def income_expenses_summary_monthly (db : DB) (y m : Nat) : Summary :=
  let formatted_date := formatYM y m
  let total_expenses :=
    ((db.expenses.filter (fun e => monthKeyMatches formatted_date e.date)).map
      (fun e => e.amount)).sum
  let total_income :=
    ((db.incomes.filter (fun i => monthKeyMatches formatted_date i.date)).map
      (fun i => i.amount)).sum
  ⟨total_income, total_expenses, total_income - total_expenses⟩

/-- Byte-wise lexicographic comparison of character lists (SQLite's memcmp
text ordering; on the ASCII keys at hand, codepoint order). -/
def listLtB : List Char → List Char → Bool
  | [], [] => false
  | [], _ :: _ => true
  | _ :: _, [] => false
  | a :: as, b :: bs =>
    if a.toNat < b.toNat then true
    else if b.toNat < a.toNat then false
    else listLtB as bs

/-- Lexicographic string comparison used for the GROUP BY output order. -/
def strLtB (s t : String) : Bool := listLtB s.data t.data

/-- Insert one (key, amount) pair into an ascending grouped list, merging
equal keys (the sorter SQLite runs for an unindexed GROUP BY). -/
def insertTrend (k : String) (a : ℚ) : List (String × ℚ) → List (String × ℚ)
  | [] => [(k, a)]
  | (k', s) :: rest =>
    if k == k' then (k', s + a) :: rest
    else if strLtB k k' then (k, a) :: (k', s) :: rest
    else (k', s) :: insertTrend k a rest

/-- `trends_for_tracking_spending`: the GROUP BY query
`SELECT strftime('%Y-%m', date), SUM(amount) ... GROUP BY strftime(...)`,
whose unindexed grouping sorts the keys ascending.  Rows whose date SQLite
cannot parse would fall into a NULL group; they are skipped here, and the
theorems about this query assume canonically dated stores. -/
def trends_for_tracking_spending (db : DB) : List (String × ℚ) :=
  db.expenses.foldr
    (fun e acc =>
      match strftimeYM e.date with
      | some k => insertTrend k e.amount acc
      | none => acc)
    []

/-! ### Savings goals -/

/-- Comparison of two parsed (year, month, day) triples, as comparing the
`datetime` objects does: lexicographic. -/
def dateLE (a b : Nat × Nat × Nat) : Bool :=
  decide (a.1 < b.1) ||
    (a.1 == b.1 &&
      (decide (a.2.1 < b.2.1) || (a.2.1 == b.2.1 && decide (a.2.2 ≤ b.2.2))))

/-- `personalised_financial_goal`: normalises the goal name, requires the
finish date to be strictly after the start date (compared as parsed dates;
the menu layer has already validated both formats), and inserts the goal
with `saved_up_so_far = 0` — with NO check against an existing goal of the
same name. -/
def personalised_financial_goal (db : DB) (name_of_goal : String) (desired_amount : ℚ)
    (commencing_date finish_date : String) : Res × DB :=
  match parseYMD finish_date.data, parseYMD commencing_date.data with
  | some f, some c =>
    if dateLE f c then (.invalidRange, db)
    else
      (.ok,
        { db with
          goals := db.goals ++
            [⟨db.nextGoalId, pyNorm name_of_goal, commencing_date, finish_date,
              desired_amount, 0⟩],
          nextGoalId := db.nextGoalId + 1 })
  | _, _ => (.invalidDate, db)

/-- The row `browse_goal_progress` fetches: the FIRST goal row whose lowered
name equals the normalised input (`fetchone` on an unordered SELECT returns
the first row in rowid order). -/
def fetchGoal (db : DB) (key : String) : Option GoalRow :=
  db.goals.find? (fun g => sqlLower g.name == key)

/-- `browse_goal_progress`: shows the fetched goal's progress and, only while
`remaining > 0`, offers to add savings (`add_more`); a non-positive typed
amount is rejected; otherwise the UPDATE sets `saved_up_so_far` to the
FETCHED row's amount plus the contribution on EVERY row whose lowered name
matches. -/
def browse_goal_progress (db : DB) (name_of_goal : String) (add_more : Bool)
    (new_savings : ℚ) : Res × DB :=
  let key := pyNorm name_of_goal
  match fetchGoal db key with
  | none => (.notFound, db)
  | some g =>
    if g.target - g.saved > 0 then
      if add_more then
        if new_savings ≤ 0 then (.invalidAmount, db)
        else
          let updated_savings := g.saved + new_savings
          (.ok,
            { db with
              goals := db.goals.map (fun r =>
                if sqlLower r.name == key then { r with saved := updated_savings } else r) })
      else (.viewed, db)
    else (.congrats, db)

/-! ### Auxiliary definition for the grouped-sum specification -/

/-- The total amount a grouped list assigns to one key (the specification-side
reading of one output row of the GROUP BY). -/
def sumForKey (l : List (String × ℚ)) (k : String) : ℚ :=
  ((l.filter (fun p => p.1 == k)).map (fun p => p.2)).sum

/-! ### Concrete stores used as witnesses and counterexamples -/

/-- A freshly initialised store. -/
def emptyDB : DB := ⟨[], [], [], [], [], [], 1, 1, 1⟩

/-- One open savings goal: target 100, nothing saved yet. -/
def dbTrip : DB :=
  { emptyDB with goals := [⟨1, "trip", "2024-01-01", "2024-06-01", 100, 0⟩], nextGoalId := 2 }

/-- One expense row of 5 under the food category. -/
def dbExp : DB :=
  { emptyDB with
    expenses := [⟨1, "2024-03-05", "food", 5⟩],
    expenseCats := [⟨"food", none⟩],
    nextExpenseId := 2 }

/-- One already over-funded goal (saved 120 of 100). -/
def dbDone : DB :=
  { emptyDB with goals := [⟨1, "trip", "2024-01-01", "2024-06-01", 100, 120⟩], nextGoalId := 2 }

/-- Two distinct goals that share the name trip. -/
def dbTwoGoals : DB :=
  { emptyDB with
    goals := [⟨1, "trip", "2024-01-01", "2024-06-01", 500, 20⟩,
      ⟨2, "trip", "2024-02-01", "2024-07-01", 900, 77⟩],
    nextGoalId := 3 }

/-- One income and one expense category. -/
def dbCats : DB :=
  { emptyDB with incomeCats := [⟨"salary", none⟩], expenseCats := [⟨"food", none⟩] }

/-- The name food registered in both namespaces. -/
def dbBoth : DB :=
  { emptyDB with incomeCats := [⟨"food", none⟩], expenseCats := [⟨"food", none⟩] }

/-- Expense rows under two categories. -/
def dbDel : DB :=
  { emptyDB with
    expenses := [⟨1, "2024-03-05", "food", 5⟩, ⟨2, "2024-03-06", "rent", 7⟩],
    nextExpenseId := 3 }

/-- Two March expenses and one March income (the spec's scenario A data). -/
def dbSum : DB :=
  { emptyDB with
    expenses := [⟨1, "2024-03-01", "food", 50⟩, ⟨2, "2024-03-15", "food", 30⟩],
    incomes := [⟨1, "salary", 200, "2024-03-02"⟩],
    expenseCats := [⟨"food", none⟩],
    incomeCats := [⟨"salary", none⟩],
    nextExpenseId := 3,
    nextIncomeId := 2 }

/-- Expenses in two different months. -/
def dbTrend : DB :=
  { emptyDB with
    expenses := [⟨1, "2024-03-01", "food", 50⟩, ⟨2, "2024-02-15", "food", 30⟩],
    expenseCats := [⟨"food", none⟩],
    nextExpenseId := 3 }

/-! ### Character and order facts -/


theorem char_eq_iff_toNat (c d : Char) : c = d ↔ c.toNat = d.toNat := by
  constructor
  · intro h; rw [h]
  · intro h; exact Char.ext (UInt32.ext (by simpa [Char.toNat] using h))

theorem toNat_hyphen : ('-' : Char).toNat = 45 := rfl

theorem toNat_zero : ('0' : Char).toNat = 48 := rfl

theorem toNat_one : ('1' : Char).toNat = 49 := rfl

theorem toNat_two : ('2' : Char).toNat = 50 := rfl

theorem toNat_three : ('3' : Char).toNat = 51 := rfl

theorem daysInMonth_le (y m : Nat) : daysInMonth y m ≤ 31 := by
  unfold daysInMonth
  split
  · split <;> omega
  · split <;> omega

theorem isSome_guard {α : Type} (b : Bool) (x : α) :
    (if b = true then some x else none).isSome = b := by
  cases b <;> simp

theorem specRelaxedDay_month_out (y m : Nat) (hm : ¬(1 ≤ m ∧ m ≤ 12)) (ds : List Char) :
    specRelaxedDay y m ds = false := by
  rcases ds with _ | ⟨d1, _ | ⟨d2, rest⟩⟩
  · rfl
  · refine Bool.not_eq_true _ |>.mp fun h => ?_
    simp only [specRelaxedDay, isRealDate, Bool.and_eq_true, decide_eq_true_eq] at h
    omega
  · rcases rest with _ | ⟨d3, rest2⟩
    · refine Bool.not_eq_true _ |>.mp fun h => ?_
      simp only [specRelaxedDay, isRealDate, Bool.and_eq_true, decide_eq_true_eq] at h
      omega
    · rfl

theorem day_guard_eq1 (y m : Nat) (hm1 : 1 ≤ m) (hm2 : m ≤ 12) (d1 : Char) :
    (dayLang1 d1 && dtValid y m (dval d1)) = (isDigit d1 && isRealDate y m (dval d1)) := by
  rw [Bool.eq_iff_iff]
  simp only [dayLang1, dtValid, isRealDate, isDigit, dval, Bool.and_eq_true, decide_eq_true_eq]
  omega

theorem day_guard_eq2 (y m : Nat) (hm1 : 1 ≤ m) (hm2 : m ≤ 12) (d1 d2 : Char) :
    (dayLang2 d1 d2 && dtValid y m (10 * dval d1 + dval d2)) =
      (isDigit d1 && (isDigit d2 && isRealDate y m (10 * dval d1 + dval d2))) := by
  have h31 := daysInMonth_le y m
  rw [Bool.eq_iff_iff]
  simp only [dayLang2, dtValid, isRealDate, isDigit, dval, beq_iff_eq, char_eq_iff_toNat,
    toNat_zero, toNat_one, toNat_two, toNat_three, Bool.or_eq_true, Bool.and_eq_true,
    decide_eq_true_eq]
  omega

theorem parseDay_isSome (y m : Nat) (hm1 : 1 ≤ m) (hm2 : m ≤ 12) (ds : List Char) :
    (parseDay y m ds).isSome = specRelaxedDay y m ds := by
  rcases ds with _ | ⟨d1, _ | ⟨d2, rest⟩⟩
  · rfl
  · rw [show parseDay y m [d1] =
        (if (dayLang1 d1 && dtValid y m (dval d1)) = true then some (y, m, dval d1)
          else none) from rfl]
    rw [isSome_guard, day_guard_eq1 y m hm1 hm2]
    simp [specRelaxedDay, Bool.and_assoc]
  · rcases rest with _ | ⟨d3, rest2⟩
    · rw [show parseDay y m [d1, d2] =
          (if (dayLang2 d1 d2 && dtValid y m (10 * dval d1 + dval d2)) = true then
            some (y, m, 10 * dval d1 + dval d2) else none) from rfl]
      rw [isSome_guard, day_guard_eq2 y m hm1 hm2]
      simp [specRelaxedDay, Bool.and_assoc]
    · rfl

theorem monthLang1_facts (c : Char) (h : monthLang1 c = true) :
    isDigit c = true ∧ 1 ≤ dval c ∧ dval c ≤ 12 := by
  simp only [monthLang1, isDigit, dval, Bool.and_eq_true, decide_eq_true_eq] at h ⊢
  omega

theorem monthLang2_facts (c1 c2 : Char) (h : monthLang2 c1 c2 = true) :
    isDigit c1 = true ∧ isDigit c2 = true ∧
      1 ≤ 10 * dval c1 + dval c2 ∧ 10 * dval c1 + dval c2 ≤ 12 := by
  simp only [monthLang2, isDigit, dval, beq_iff_eq, char_eq_iff_toNat, toNat_zero,
    toNat_one, toNat_two, Bool.or_eq_true, Bool.and_eq_true, decide_eq_true_eq] at h ⊢
  omega

theorem monthLang2_of_range (c1 c2 : Char) (h1 : isDigit c1 = true) (h2 : isDigit c2 = true)
    (hv1 : 1 ≤ 10 * dval c1 + dval c2) (hv2 : 10 * dval c1 + dval c2 ≤ 12) :
    monthLang2 c1 c2 = true := by
  simp only [monthLang2, isDigit, dval, beq_iff_eq, char_eq_iff_toNat, toNat_zero,
    toNat_one, toNat_two, Bool.or_eq_true, Bool.and_eq_true, decide_eq_true_eq] at *
  omega

theorem monthLang1_of_range (c : Char) (h1 : isDigit c = true) (hv1 : 1 ≤ dval c) :
    monthLang1 c = true := by
  simp only [monthLang1, isDigit, dval, Bool.and_eq_true, decide_eq_true_eq] at *
  omega


theorem isDigit_dval_le (c : Char) (h : isDigit c = true) : dval c ≤ 9 := by
  simp only [isDigit, dval, Bool.and_eq_true, decide_eq_true_eq] at h ⊢
  omega

theorem monthLang1_not_digit_zero (c : Char) (hm : ¬ monthLang1 c = true)
    (hd : isDigit c = true) : dval c = 0 := by
  simp only [monthLang1, isDigit, dval, Bool.and_eq_true, decide_eq_true_eq] at *
  omega

theorem parseMonthDay_isSome (y : Nat) (l : List Char) :
    (parseMonthDay y l).isSome = specRelaxedMonthDay y l := by
  rcases l with _ | ⟨m1, _ | ⟨c, rest⟩⟩
  · rfl
  · rfl
  · simp only [parseMonthDay, specRelaxedMonthDay]
    by_cases hc : (c == '-') = true
    · rw [if_pos hc, if_pos hc]
      by_cases hm : monthLang1 m1 = true
      · rw [if_pos hm]
        obtain ⟨hd, hv1, hv2⟩ := monthLang1_facts m1 hm
        rw [parseDay_isSome y (dval m1) hv1 hv2 rest, hd, Bool.true_and]
      · rw [if_neg hm]
        by_cases hd : isDigit m1 = true
        · have hz : dval m1 = 0 := monthLang1_not_digit_zero m1 hm hd
          rw [specRelaxedDay_month_out y (dval m1) (by omega) rest]
          simp
        · rw [Bool.not_eq_true _ |>.mp hd, Bool.false_and]
          simp
    · rw [if_neg hc, if_neg hc]
      rcases rest with _ | ⟨c2, rest2⟩
      · rfl
      · show (if (c2 == '-') = true then
              if monthLang2 m1 c = true then parseDay y (10 * dval m1 + dval c) rest2
              else none
            else none).isSome =
          (if (c2 == '-') = true then
            isDigit m1 && isDigit c && specRelaxedDay y (10 * dval m1 + dval c) rest2
          else false)
        by_cases hc2 : (c2 == '-') = true
        · rw [if_pos hc2, if_pos hc2]
          by_cases hm : monthLang2 m1 c = true
          · rw [if_pos hm]
            obtain ⟨hd1, hd2, hv1, hv2⟩ := monthLang2_facts m1 c hm
            rw [parseDay_isSome y (10 * dval m1 + dval c) hv1 hv2 rest2, hd1, hd2]
            simp
          · rw [if_neg hm]
            by_cases hd1 : isDigit m1 = true
            · by_cases hd2 : isDigit c = true
              · have hv : ¬ (1 ≤ 10 * dval m1 + dval c ∧ 10 * dval m1 + dval c ≤ 12) := by
                  intro hv
                  exact hm (monthLang2_of_range m1 c hd1 hd2 hv.1 hv.2)
                rw [specRelaxedDay_month_out y (10 * dval m1 + dval c) hv rest2]
                simp
              · rw [Bool.not_eq_true _ |>.mp hd2]
                simp
            · rw [Bool.not_eq_true _ |>.mp hd1]
              simp
        · rw [if_neg hc2, if_neg hc2]
          rfl

/-- C5 (amended): `validate_date` returns true iff the text is a 4-digit year,
a 1- or 2-digit month and a 1- or 2-digit day separated by hyphens, denoting a
real calendar date — the canonical 2-digit format is accepted but not required.
The function is pure, hence side-effect free. -/
theorem c5_validate_date_accepts_relaxed_format (s : String) :
    validate_date s = specRelaxedDate s := by
  rcases s with ⟨l⟩
  rcases l with _ | ⟨y1, _ | ⟨y2, _ | ⟨y3, _ | ⟨y4, _ | ⟨c, rest⟩⟩⟩⟩⟩ <;> try rfl
  show (parseYMD (y1 :: y2 :: y3 :: y4 :: c :: rest)).isSome =
    specRelaxedDate ⟨y1 :: y2 :: y3 :: y4 :: c :: rest⟩
  simp only [parseYMD, specRelaxedDate]
  by_cases h : (c == '-' && isDigit y1 && isDigit y2 && isDigit y3 && isDigit y4) = true
  · rw [if_pos h]
    rw [parseMonthDay_isSome]
    obtain ⟨⟨⟨⟨h1, h2⟩, h3⟩, h4⟩, h5⟩ :
        ((((c == '-') = true ∧ isDigit y1 = true) ∧ isDigit y2 = true) ∧
          isDigit y3 = true) ∧ isDigit y4 = true := by
      simpa [Bool.and_eq_true] using h
    rw [h1, h2, h3, h4, h5]
    simp
  · rw [if_neg h]
    have h' := Bool.not_eq_true _ |>.mp h
    rw [show (c == '-' && isDigit y1 && isDigit y2 && isDigit y3 && isDigit y4 &&
        specRelaxedMonthDay (1000 * dval y1 + 100 * dval y2 + 10 * dval y3 + dval y4) rest)
        = ((c == '-' && isDigit y1 && isDigit y2 && isDigit y3 && isDigit y4) &&
        specRelaxedMonthDay (1000 * dval y1 + 100 * dval y2 + 10 * dval y3 + dval y4) rest)
      from rfl, h', Bool.false_and]
    rfl


theorem fetchGoal_after_update (l : List GoalRow) (key : String) (v : ℚ) :
    (l.map (fun r => if sqlLower r.name == key then { r with saved := v } else r)).find?
        (fun g => sqlLower g.name == key) =
      (l.find? (fun g => sqlLower g.name == key)).map (fun g => { g with saved := v }) := by
  induction l with
  | nil => rfl
  | cons a t ih =>
    by_cases h : (sqlLower a.name == key) = true
    · rw [List.map_cons, if_pos h]
      simp only [List.find?_cons, h]
      rfl
    · rw [List.map_cons, if_neg h]
      simp only [List.find?_cons, Bool.not_eq_true _ |>.mp h]
      exact ih

theorem browse_goal_progress_adds (db : DB) (n : String) (a : ℚ) (g : GoalRow)
    (hg : fetchGoal db (pyNorm n) = some g) (hlt : g.saved < g.target) (ha : 0 < a) :
    browse_goal_progress db n true a =
      (.ok,
        { db with
          goals := db.goals.map (fun r =>
            if sqlLower r.name == pyNorm n then { r with saved := g.saved + a } else r) }) := by
  simp only [browse_goal_progress, hg]
  rw [if_pos (show g.target - g.saved > 0 by linarith)]
  simp only [if_true, ite_true, if_neg (show ¬ a ≤ 0 by linarith)]

theorem c9_helper_congrats (db : DB) (n : String) (add_more : Bool) (a : ℚ) (g : GoalRow)
    (hg : fetchGoal db (pyNorm n) = some g) (hc : g.target ≤ g.saved) :
    browse_goal_progress db n add_more a = (.congrats, db) := by
  simp only [browse_goal_progress, hg]
  rw [if_neg (show ¬ g.target - g.saved > 0 by linarith)]


/-- C4 (counterexample): contributing 100 and then 50 to a goal with target
100 and nothing saved is NOT the same as one contribution of 150 — the first
contribution completes the goal and the second is refused. -/
theorem c4_counterexample :
    (browse_goal_progress (browse_goal_progress dbTrip ("trip") true 100).2 ("trip") true
      50).2 ≠ (browse_goal_progress dbTrip ("trip") true 150).2 := by
  have hpred : (sqlLower ("trip") == pyNorm ("trip")) = true := by decide
  have hpred2 : sqlLower ("trip") = pyNorm ("trip") := by decide
  have hg0 : fetchGoal dbTrip (pyNorm ("trip")) =
      some ⟨1, "trip", "2024-01-01", "2024-06-01", 100, 0⟩ := by decide
  have h1 := browse_goal_progress_adds dbTrip ("trip") 100 _ hg0 (by norm_num) (by norm_num)
  have e1 : (browse_goal_progress dbTrip ("trip") true 100).2 =
      { dbTrip with goals := [⟨1, "trip", "2024-01-01", "2024-06-01", 100, 100⟩] } := by
    rw [h1]
    norm_num [dbTrip, emptyDB, hpred, hpred2]
  have hg1 : fetchGoal
      { dbTrip with goals := [⟨1, "trip", "2024-01-01", "2024-06-01", 100, 100⟩] }
      (pyNorm ("trip")) = some ⟨1, "trip", "2024-01-01", "2024-06-01", 100, 100⟩ := by decide
  have h2 := c9_helper_congrats _ ("trip") true 50 _ hg1 (by norm_num)
  have hL : (browse_goal_progress (browse_goal_progress dbTrip ("trip") true 100).2 ("trip")
      true 50).2 = { dbTrip with goals := [⟨1, "trip", "2024-01-01", "2024-06-01", 100, 100⟩] } := by
    rw [e1, h2]
  have h3 := browse_goal_progress_adds dbTrip ("trip") 150 _ hg0 (by norm_num) (by norm_num)
  have e3 : (browse_goal_progress dbTrip ("trip") true 150).2 =
      { dbTrip with goals := [⟨1, "trip", "2024-01-01", "2024-06-01", 100, 150⟩] } := by
    rw [h3]
    norm_num [dbTrip, emptyDB, hpred, hpred2]
  rw [hL, e3]
  intro hEq
  simp only [dbTrip, emptyDB, DB.mk.injEq, List.cons.injEq, GoalRow.mk.injEq] at hEq
  norm_num at hEq

/-- C4 (amended): goal contributions are cumulative as long as the goal stays
strictly below its target: if the first contribution still leaves the fetched
goal short of its target, contributing x then y equals one contribution of
x + y; once a contribution reaches the target, further ones are refused (C9),
which is what breaks the unrestricted claim. -/
theorem c4_contribute_cumulative_below_target (db : DB) (n : String) (x y : ℚ) (g : GoalRow)
    (hg : fetchGoal db (pyNorm n) = some g) (hx : 0 < x) (hy : 0 < y)
    (hxy : g.saved + x < g.target) :
    (browse_goal_progress (browse_goal_progress db n true x).2 n true y).2 =
      (browse_goal_progress db n true (x + y)).2 := by
  have h1 := browse_goal_progress_adds db n x g hg (by linarith) hx
  rw [h1]
  have hg1 : fetchGoal
      { db with
        goals := db.goals.map (fun r =>
          if sqlLower r.name == pyNorm n then { r with saved := g.saved + x } else r) }
      (pyNorm n) = some { g with saved := g.saved + x } := by
    show (db.goals.map (fun r =>
        if sqlLower r.name == pyNorm n then { r with saved := g.saved + x } else r)).find?
        (fun r => sqlLower r.name == pyNorm n) = _
    rw [fetchGoal_after_update,
      show db.goals.find? (fun r => sqlLower r.name == pyNorm n) = some g from hg]
    rfl
  have h2 := browse_goal_progress_adds _ n y { g with saved := g.saved + x } hg1
    (show g.saved + x < g.target from hxy) hy
  rw [h2]
  have h3 := browse_goal_progress_adds db n (x + y) g hg (by linarith) (by linarith)
  rw [h3]
  show ({ db with goals := _ } : DB) = { db with goals := _ }
  congr 1
  rw [List.map_map]
  refine List.map_congr_left fun r hr => ?_
  by_cases hm : (sqlLower r.name == pyNorm n) = true
  · simp [Function.comp, hm, add_assoc]
  · simp [Function.comp, hm]

/-- C10: goal names are not unique. Goal creation inserts a new row with no
check against an existing goal of the same name, and a contribution's UPDATE
matches every row whose lowered name equals the given name, setting each
matching row's saved amount to the FIRST fetched row's amount plus the
contribution — overwriting the other namesake goal's progress. -/
theorem c10_goal_names_not_unique :
    (∀ (db : DB) (nm : String) (amt : ℚ) (sd fd : String) (f c : Nat × Nat × Nat),
        parseYMD fd.data = some f → parseYMD sd.data = some c → dateLE f c = false →
        personalised_financial_goal db nm amt sd fd =
          (.ok, { db with
            goals := db.goals ++ [⟨db.nextGoalId, pyNorm nm, sd, fd, amt, 0⟩],
            nextGoalId := db.nextGoalId + 1 })) ∧
    (∀ (db : DB) (n : String) (a : ℚ) (g : GoalRow),
        fetchGoal db (pyNorm n) = some g → g.saved < g.target → 0 < a →
        (browse_goal_progress db n true a).2.goals =
          db.goals.map (fun r =>
            if sqlLower r.name == pyNorm n then { r with saved := g.saved + a } else r)) := by
  constructor
  · intro db nm amt sd fd f c hf hc hlt
    simp only [personalised_financial_goal, hf, hc]
    rw [if_neg (by simp [hlt])]
  · intro db n a g hg hlt ha
    rw [browse_goal_progress_adds db n a g hg hlt ha]


/-- C1 (bug evidence): `update_my_spending`, alone among the amount-writing
operations, performs no positivity check — updating expense 1 to the amount
-3 succeeds and stores the non-positive amount, contradicting the claim that
every stored amount stays strictly positive. -/
theorem c1_update_my_spending_accepts_nonpositive :
    update_my_spending dbExp 1 (-3) =
      (.ok, { dbExp with expenses := [⟨1, "2024-03-05", "food", -3⟩] }) := by
  decide

/-- C9: once the goal `browse_goal_progress` fetches is complete (saved at
least the target, i.e. remaining at most 0), the operation refuses every
further contribution and returns the store unchanged. -/
theorem c9_completed_goal_rejects_contributions (db : DB) (n : String) (add_more : Bool)
    (a : ℚ) (g : GoalRow) (hg : fetchGoal db (pyNorm n) = some g)
    (hc : g.target ≤ g.saved) :
    browse_goal_progress db n add_more a = (.congrats, db) :=
  c9_helper_congrats db n add_more a g hg hc

/-- Witness for C9 at a concrete over-funded goal. -/
theorem c9_witness :
    browse_goal_progress dbDone ("trip") true 50 = (.congrats, dbDone) :=
  c9_completed_goal_rejects_contributions dbDone ("trip") true 50
    ⟨1, "trip", "2024-01-01", "2024-06-01", 100, 120⟩ (by decide) (by norm_num)

/-- Witness for the amended C4 at a concrete open goal. -/
theorem c4_witness :
    (browse_goal_progress (browse_goal_progress dbTrip ("trip") true 10).2 ("trip") true
      20).2 = (browse_goal_progress dbTrip ("trip") true (10 + 20)).2 :=
  c4_contribute_cumulative_below_target dbTrip ("trip") 10 20 ⟨1, "trip", "2024-01-01", "2024-06-01", 100, 0⟩
    (by decide) (by norm_num) (by norm_num) (by norm_num)

/-- Witness for C10: a duplicate-name creation and a contribution that
overwrites both namesake rows. -/
theorem c10_witness :
    (personalised_financial_goal dbTrip ("trip") 77 ("2024-01-01") ("2024-06-01") =
      (.ok, { dbTrip with
        goals := dbTrip.goals ++ [⟨2, pyNorm ("trip"), "2024-01-01", "2024-06-01", 77, 0⟩],
        nextGoalId := 3 })) ∧
    ((browse_goal_progress dbTwoGoals ("trip") true 5).2.goals =
      dbTwoGoals.goals.map (fun r =>
        if sqlLower r.name == pyNorm ("trip") then { r with saved := 20 + 5 } else r)) := by
  refine ⟨c10_goal_names_not_unique.1 dbTrip ("trip") 77 ("2024-01-01") ("2024-06-01") (2024, 6, 1)
    (2024, 1, 1) (by decide) (by decide) (by decide), ?_⟩
  have h := c10_goal_names_not_unique.2 dbTwoGoals ("trip") 5
    ⟨1, "trip", "2024-01-01", "2024-06-01", 500, 20⟩ (by decide) (by norm_num) (by norm_num)
  simpa using h


theorem toNat_ofNat_valid (n : Nat) (h : n < 55296) : (Char.ofNat n).toNat = n := by
  have hv : n.isValidChar := Or.inl h
  rw [Char.ofNat, dif_pos hv]
  show (Char.ofNatAux n hv).toNat = n
  simp [Char.ofNatAux, Char.toNat, UInt32.toNat]

theorem asciiLowerChar_idem (c : Char) : asciiLowerChar (asciiLowerChar c) = asciiLowerChar c := by
  by_cases h : (65 ≤ c.toNat && c.toNat ≤ 90) = true
  · have hb : (65 ≤ c.toNat ∧ c.toNat ≤ 90) := by simpa using h
    have hc : asciiLowerChar c = Char.ofNat (c.toNat + 32) := by
      unfold asciiLowerChar
      rw [if_pos h]
    have ht : (Char.ofNat (c.toNat + 32)).toNat = c.toNat + 32 :=
      toNat_ofNat_valid _ (by omega)
    rw [hc]
    unfold asciiLowerChar
    rw [if_neg (by simp [ht]; omega)]
  · have hc : asciiLowerChar c = c := by
      unfold asciiLowerChar
      rw [if_neg h]
    rw [hc, hc]

theorem sqlLower_pyNorm (s : String) : sqlLower (pyNorm s) = pyNorm s := by
  show String.mk (List.map asciiLowerChar (pyNorm s).data) = pyNorm s
  have : (pyNorm s).data = List.map asciiLowerChar (pyStrip s).data := rfl
  rw [this, List.map_map]
  rw [show List.map (asciiLowerChar ∘ asciiLowerChar) (pyStrip s).data =
      List.map asciiLowerChar (pyStrip s).data from
    List.map_congr_left fun c _ => asciiLowerChar_idem c]
  rfl

/-- C2: `set_budget_for_category` upserts keyed by the normalised category
name alone. Two successful calls with the same name leave exactly one budget
row under that name, carrying the value and type of the latest call and
replacing the prior entry regardless of its type; rows under other names are
untouched. -/
theorem c2_set_budget_upserts_by_name (db : DB) (n : String) (v1 v2 : ℚ) (t1 t2 : String) (b1 b2 : Bool)
    (hv1 : 0 < v1) (hv2 : 0 < v2)
    (ht1 : pyNorm t1 = "income" ∨ pyNorm t1 = "expense")
    (ht2 : pyNorm t2 = "income" ∨ pyNorm t2 = "expense")
    (hex1 : existing_category db (pyNorm n) (pyNorm t1) = true)
    (hex2 : existing_category db (pyNorm n) (pyNorm t2) = true) :
    (set_budget_for_category db n v1 t1 b1).1 = .ok ∧
    (set_budget_for_category (set_budget_for_category db n v1 t1 b1).2 n v2 t2 b2).1 = .ok ∧
    ((set_budget_for_category (set_budget_for_category db n v1 t1 b1).2 n v2 t2
          b2).2.budgets.filter (fun b => b.name == pyNorm n) = [⟨pyNorm n, v2, pyNorm t2⟩]) ∧
    ((set_budget_for_category (set_budget_for_category db n v1 t1 b1).2 n v2 t2
          b2).2.budgets.filter (fun b => !(b.name == pyNorm n)) =
        db.budgets.filter (fun b => !(b.name == pyNorm n))) := by
  have e1 : set_budget_for_category db n v1 t1 b1 =
      (.ok, budgetUpsert db (pyNorm n) v1 (pyNorm t1)) := by
    simp only [set_budget_for_category]
    rw [if_neg (by linarith : ¬ v1 ≤ 0),
      if_neg (show ¬ (!(pyNorm t1 == "income" || pyNorm t1 == "expense")) = true by
        rcases ht1 with h | h <;> rw [h] <;> decide),
      if_pos hex1]
  have hex2' : existing_category (budgetUpsert db (pyNorm n) v1 (pyNorm t1)) (pyNorm n)
      (pyNorm t2) = true := hex2
  have e2 : set_budget_for_category (budgetUpsert db (pyNorm n) v1 (pyNorm t1)) n v2 t2 b2 =
      (.ok, budgetUpsert (budgetUpsert db (pyNorm n) v1 (pyNorm t1)) (pyNorm n) v2
        (pyNorm t2)) := by
    simp only [set_budget_for_category]
    rw [if_neg (by linarith : ¬ v2 ≤ 0),
      if_neg (show ¬ (!(pyNorm t2 == "income" || pyNorm t2 == "expense")) = true by
        rcases ht2 with h | h <;> rw [h] <;> decide),
      if_pos hex2']
  rw [e1, e2]
  refine ⟨rfl, rfl, ?_, ?_⟩
  · show ((budgetUpsert (budgetUpsert db (pyNorm n) v1 (pyNorm t1)) (pyNorm n) v2
        (pyNorm t2)).budgets.filter (fun b => b.name == pyNorm n)) = _
    simp [budgetUpsert, List.filter_append, List.filter_filter]
  · show ((budgetUpsert (budgetUpsert db (pyNorm n) v1 (pyNorm t1)) (pyNorm n) v2
        (pyNorm t2)).budgets.filter (fun b => !(b.name == pyNorm n))) = _
    simp [budgetUpsert, List.filter_append, List.filter_filter]


/-- C3: with a confirmed deletion, `delete_spending_type` removes all and
only the expense rows whose trimmed, lowercased category equals the given
normalised category (every other row, and every other table, is untouched:
the resulting store differs only in that filter), and with zero matching rows
it reports nothing-to-delete and mutates nothing. -/
theorem c3_delete_expenses_by_category (db : DB) (c : String) (hc : pyNorm c ≠ "") :
    (db.expenses.filter (spendingTypeMatches (pyNorm c)) = [] →
      delete_spending_type db c true = (.nothingToDelete, db)) ∧
    (db.expenses.filter (spendingTypeMatches (pyNorm c)) ≠ [] →
      delete_spending_type db c true =
        (.ok, { db with
          expenses := db.expenses.filter (fun e => !(spendingTypeMatches (pyNorm c) e)) })) ∧
    (∀ e : ExpenseRow, e ∈ (delete_spending_type db c true).2.expenses ↔
      (e ∈ db.expenses ∧ spendingTypeMatches (pyNorm c) e = false)) := by
  have hkey : (pyNorm c == "") = false := by
    simpa using hc
  have hne : ¬ ((pyNorm c == "") = true) := by simp [hkey]
  refine ⟨fun hE => ?_, fun hNE => ?_, fun e => ?_⟩
  · simp only [delete_spending_type]
    rw [if_neg hne, if_pos (by simp [hE])]
  · simp only [delete_spending_type]
    rw [if_neg hne, if_neg (by simp [hNE]), if_pos trivial]
  · by_cases hE : db.expenses.filter (spendingTypeMatches (pyNorm c)) = []
    · have heq : delete_spending_type db c true = (.nothingToDelete, db) := by
        simp only [delete_spending_type]
        rw [if_neg hne, if_pos (by simp [hE])]
      rw [heq]
      have hnone := List.filter_eq_nil_iff.mp hE
      constructor
      · intro he
        refine ⟨he, ?_⟩
        have := hnone e he
        simpa using this
      · exact fun he => he.1
    · have heq : delete_spending_type db c true =
          (.ok, { db with
            expenses := db.expenses.filter (fun e => !(spendingTypeMatches (pyNorm c) e)) }) := by
        simp only [delete_spending_type]
        rw [if_neg hne, if_neg (by simp [hE]), if_pos trivial]
      rw [heq]
      show e ∈ db.expenses.filter (fun e => !(spendingTypeMatches (pyNorm c) e)) ↔ _
      rw [List.mem_filter]
      simp

/-- C7: category namespaces are independent and namespace-scoped unique:
adding a name succeeds when its lowered form is absent from that namespace's
table and fails with a duplicate error (and no insertion) when present;
adding the same name immediately again fails with the duplicate error; and
adding it as an income category then as an expense category both succeed. -/
theorem c7_category_namespaces (db : DB) (n descr : String) (hk : pyNorm n ≠ "") :
    ((db.expenseCats.any (fun r => sqlLower r.name == pyNorm n)) = false →
      add_expense_category db n =
        (.ok, { db with expenseCats := db.expenseCats ++ [⟨pyNorm n, none⟩] })) ∧
    ((db.expenseCats.any (fun r => sqlLower r.name == pyNorm n)) = true →
      add_expense_category db n = (.duplicate, db)) ∧
    ((db.incomeCats.any (fun r => sqlLower r.name == pyNorm n)) = false →
      add_income_category db n descr =
        (.ok, { db with incomeCats := db.incomeCats ++ [⟨pyNorm n, some descr⟩] })) ∧
    ((db.incomeCats.any (fun r => sqlLower r.name == pyNorm n)) = true →
      add_income_category db n descr = (.duplicate, db)) ∧
    ((db.expenseCats.any (fun r => sqlLower r.name == pyNorm n)) = false →
      add_expense_category (add_expense_category db n).2 n =
        (.duplicate, (add_expense_category db n).2)) ∧
    ((db.expenseCats.any (fun r => sqlLower r.name == pyNorm n)) = false →
      (db.incomeCats.any (fun r => sqlLower r.name == pyNorm n)) = false →
      (add_income_category db n descr).1 = .ok ∧
      (add_expense_category (add_income_category db n descr).2 n).1 = .ok) := by
  have hne : ¬ ((pyNorm n == "") = true) := by simpa using hk
  have hself : (sqlLower (pyNorm n) == pyNorm n) = true := by
    rw [sqlLower_pyNorm]
    simp
  have eAbsent : (db.expenseCats.any (fun r => sqlLower r.name == pyNorm n)) = false →
      add_expense_category db n =
        (.ok, { db with expenseCats := db.expenseCats ++ [⟨pyNorm n, none⟩] }) := by
    intro hA
    simp only [add_expense_category]
    rw [if_neg hne, if_neg (by simp [hA])]
  have iAbsent : (db.incomeCats.any (fun r => sqlLower r.name == pyNorm n)) = false →
      add_income_category db n descr =
        (.ok, { db with incomeCats := db.incomeCats ++ [⟨pyNorm n, some descr⟩] }) := by
    intro hA
    simp only [add_income_category]
    rw [if_neg hne, if_neg (by simp [hA])]
  refine ⟨eAbsent, fun hP => ?_, iAbsent, fun hP => ?_, fun hA => ?_, fun hA hB => ?_⟩
  · simp only [add_expense_category]
    rw [if_neg hne, if_pos hP]
  · simp only [add_income_category]
    rw [if_neg hne, if_pos hP]
  · rw [eAbsent hA]
    simp only [add_expense_category]
    rw [if_neg hne, if_pos (by simp [List.any_append, hself])]
  · have h1 := iAbsent hB
    refine ⟨by rw [h1], ?_⟩
    rw [h1]
    show (add_expense_category { db with incomeCats := _ } n).1 = Res.ok
    rw [show add_expense_category { db with
        incomeCats := db.incomeCats ++ [⟨pyNorm n, some descr⟩] } n =
      (.ok, { db with
        incomeCats := db.incomeCats ++ [⟨pyNorm n, some descr⟩],
        expenseCats := db.expenseCats ++ [⟨pyNorm n, none⟩] }) from by
      simp only [add_expense_category]
      rw [if_neg hne, if_neg (by simp [hA])]]


theorem digitChar_isDigit (k : Nat) (h : k < 10) : isDigit (digitChar k) = true := by
  interval_cases k <;> decide

theorem dval_digitChar (k : Nat) (h : k < 10) : dval (digitChar k) = k := by
  interval_cases k <;> decide

theorem digitChar_inj (a b : Nat) (ha : a < 10) (hb : b < 10)
    (h : digitChar a = digitChar b) : a = b := by
  interval_cases a <;> interval_cases b <;> first | rfl | exact absurd h (by decide)

theorem pad2_inj (a b : Nat) (ha : a ≤ 99) (hb : b ≤ 99) (h : pad2 a = pad2 b) : a = b := by
  simp only [pad2, List.cons.injEq, and_true] at h
  have e1 := digitChar_inj _ _ (by omega) (by omega) h.1
  have e2 := digitChar_inj _ _ (by omega) (by omega) h.2
  omega

theorem pad4_inj (a b : Nat) (ha : a ≤ 9999) (hb : b ≤ 9999) (h : pad4 a = pad4 b) : a = b := by
  simp only [pad4, List.cons.injEq, and_true] at h
  obtain ⟨h1, h2, h3, h4⟩ := h
  have e1 := digitChar_inj _ _ (by omega) (by omega) h1
  have e2 := digitChar_inj _ _ (by omega) (by omega) h2
  have e3 := digitChar_inj _ _ (by omega) (by omega) h3
  have e4 := digitChar_inj _ _ (by omega) (by omega) h4
  omega

theorem formatYM_inj (a b c d : Nat) (ha : a ≤ 9999) (hc : c ≤ 9999)
    (hb : b ≤ 99) (hd : d ≤ 99) (h : formatYM a b = formatYM c d) : a = c ∧ b = d := by
  have h' : pad4 a ++ '-' :: pad2 b = pad4 c ++ '-' :: pad2 d := congrArg String.data h
  have hlen : (pad4 a).length = (pad4 c).length := by simp [pad4]
  obtain ⟨h4, hrest⟩ := List.append_inj h' hlen
  have h2 : pad2 b = pad2 d := by simpa using hrest
  exact ⟨pad4_inj _ _ ha hc h4, pad2_inj _ _ hb hd h2⟩

theorem strftimeYM_of_canonical (s : String) (h : specCanonicalDate s = true) :
    strftimeYM s = some ⟨s.data.take 7⟩ := by
  rcases s with ⟨l⟩
  rcases l with _ | ⟨a, _ | ⟨b, _ | ⟨c, _ | ⟨d, _ | ⟨e, _ | ⟨f, _ | ⟨g, _ | ⟨h8, _ | ⟨i,
    _ | ⟨j, _ | ⟨k, rest⟩⟩⟩⟩⟩⟩⟩⟩⟩⟩⟩ <;>
    simp only [specCanonicalDate, Bool.false_eq_true] at h
  · simp only [isRealDate, Bool.and_eq_true, beq_iff_eq, decide_eq_true_eq] at h
    obtain ⟨⟨⟨⟨⟨⟨⟨⟨⟨⟨hh1, hh2⟩, hy1⟩, hy2⟩, hy3⟩, hy4⟩, hm1⟩, hm2⟩, hd1⟩, hd2⟩, hreal⟩ := h
    obtain ⟨⟨⟨⟨hry, hrm1⟩, hrm2⟩, hrd1⟩, hrd2⟩ := hreal
    have h31 := daysInMonth_le
      (1000 * dval a + 100 * dval b + 10 * dval c + dval d) (10 * dval f + dval g)
    simp only [strftimeYM]
    rw [if_pos]
    · rfl
    · simp only [Bool.and_eq_true, beq_iff_eq, decide_eq_true_eq]
      refine ⟨⟨⟨⟨⟨⟨⟨⟨⟨⟨⟨⟨⟨hh1, hh2⟩, hy1⟩, hy2⟩, hy3⟩, hy4⟩, hm1⟩, hm2⟩, hd1⟩, hd2⟩,
        by omega⟩, by omega⟩, by omega⟩, by omega⟩

theorem strftimeYM_format (Y M D : Nat) (hM1 : 1 ≤ M) (hM2 : M ≤ 12) (hD1 : 1 ≤ D)
    (hD2 : D ≤ 31) :
    strftimeYM ⟨pad4 Y ++ '-' :: (pad2 M ++ '-' :: pad2 D)⟩ = some (formatYM Y M) := by
  simp only [pad4, pad2, strftimeYM, List.cons_append, List.nil_append]
  rw [if_pos]
  · simp only [formatYM, pad4, pad2]
    rfl
  · simp only [Bool.and_eq_true, beq_iff_eq, decide_eq_true_eq]
    have i1 : Y / 1000 % 10 < 10 := Nat.mod_lt _ (by omega)
    have i2 : Y / 100 % 10 < 10 := Nat.mod_lt _ (by omega)
    have i3 : Y / 10 % 10 < 10 := Nat.mod_lt _ (by omega)
    have i4 : Y % 10 < 10 := Nat.mod_lt _ (by omega)
    have i5 : M / 10 % 10 < 10 := Nat.mod_lt _ (by omega)
    have i6 : M % 10 < 10 := Nat.mod_lt _ (by omega)
    have i7 : D / 10 % 10 < 10 := Nat.mod_lt _ (by omega)
    have i8 : D % 10 < 10 := Nat.mod_lt _ (by omega)
    refine ⟨⟨⟨⟨⟨⟨⟨⟨⟨⟨⟨⟨⟨trivial, trivial⟩, digitChar_isDigit _ i1⟩, digitChar_isDigit _ i2⟩,
      digitChar_isDigit _ i3⟩, digitChar_isDigit _ i4⟩, digitChar_isDigit _ i5⟩,
      digitChar_isDigit _ i6⟩, digitChar_isDigit _ i7⟩, digitChar_isDigit _ i8⟩,
      ?_⟩, ?_⟩, ?_⟩, ?_⟩
    all_goals first
      | (rw [dval_digitChar _ i5, dval_digitChar _ i6]; omega)
      | (rw [dval_digitChar _ i7, dval_digitChar _ i8]; omega)

theorem monthKeyMatches_of_canonical (key d : String) (h : specCanonicalDate d = true) :
    monthKeyMatches key d = (String.mk (d.data.take 7) == key) := by
  simp [monthKeyMatches, strftimeYM_of_canonical d h]

theorem strftimeYM_firstOfNextMonth (y m : Nat) (hm1 : 1 ≤ m) (hm2 : m ≤ 12) :
    strftimeYM (firstOfNextMonth y m) =
      some (if m == 12 then formatYM (y + 1) 1 else formatYM y (m + 1)) := by
  by_cases h12 : (m == 12) = true
  · simp only [firstOfNextMonth, h12, if_true]
    rw [strftimeYM_format (y + 1) 1 1 (by omega) (by omega) (by omega) (by omega)]
  · simp only [firstOfNextMonth, h12, if_false, Bool.false_eq_true]
    have hm12 : m ≠ 12 := by simpa using h12
    rw [strftimeYM_format y (m + 1) 1 (by omega) (by omega) (by omega) (by omega)]

theorem nextKey_ne (y m : Nat) (hm1 : 1 ≤ m) (hm2 : m ≤ 12) (hy1 : 1 ≤ y) (hy2 : y ≤ 9998) :
    (if m == 12 then formatYM (y + 1) 1 else formatYM y (m + 1)) ≠ formatYM y m := by
  by_cases h12 : (m == 12) = true
  · rw [if_pos h12]
    have hm12 : m = 12 := by simpa using h12
    intro h
    obtain ⟨hy, hm⟩ := formatYM_inj _ _ _ _ (by omega) (by omega) (by omega) (by omega) h
    omega
  · rw [if_neg (by simpa using h12)]
    intro h
    obtain ⟨hy, hm⟩ := formatYM_inj _ _ _ _ (by omega) (by omega) (by omega) (by omega) h
    omega

/-- C6: the monthly period summary sums exactly the expense and income rows
whose date string shares the reference month's 7-character year-month prefix
(string equality of the truncated representation), a row dated the first day
of the following month contributes nothing, and the reported balance is the
bucketed income minus the bucketed expenses. -/
theorem c6_monthly_summary_by_year_month (db : DB) (y m : Nat) (hm1 : 1 ≤ m) (hm2 : m ≤ 12) (hy1 : 1 ≤ y)
    (hy2 : y ≤ 9998)
    (hde : ∀ e ∈ db.expenses, specCanonicalDate e.date = true)
    (hdi : ∀ i ∈ db.incomes, specCanonicalDate i.date = true) :
    ((income_expenses_summary_monthly db y m).expenses =
      ((db.expenses.filter (fun e => String.mk (e.date.data.take 7) == formatYM y m)).map
        (fun e => e.amount)).sum) ∧
    ((income_expenses_summary_monthly db y m).income =
      ((db.incomes.filter (fun i => String.mk (i.date.data.take 7) == formatYM y m)).map
        (fun i => i.amount)).sum) ∧
    ((income_expenses_summary_monthly db y m).balance =
      (income_expenses_summary_monthly db y m).income -
        (income_expenses_summary_monthly db y m).expenses) ∧
    (∀ (i : Nat) (cat : String) (a : ℚ),
      income_expenses_summary_monthly
          { db with expenses := db.expenses ++ [⟨i, firstOfNextMonth y m, cat, a⟩] } y m =
        income_expenses_summary_monthly db y m) := by
  have hfe : db.expenses.filter (fun e => monthKeyMatches (formatYM y m) e.date) =
      db.expenses.filter (fun e => String.mk (e.date.data.take 7) == formatYM y m) :=
    List.filter_congr fun e he => monthKeyMatches_of_canonical _ _ (hde e he)
  have hfi : db.incomes.filter (fun i => monthKeyMatches (formatYM y m) i.date) =
      db.incomes.filter (fun i => String.mk (i.date.data.take 7) == formatYM y m) :=
    List.filter_congr fun i hi => monthKeyMatches_of_canonical _ _ (hdi i hi)
  have hpred : monthKeyMatches (formatYM y m) (firstOfNextMonth y m) = false := by
    simp only [monthKeyMatches, strftimeYM_firstOfNextMonth y m hm1 hm2]
    exact beq_eq_false_iff_ne.mpr (nextKey_ne y m hm1 hm2 hy1 hy2)
  refine ⟨?_, ?_, rfl, ?_⟩
  · show ((db.expenses.filter (fun e => monthKeyMatches (formatYM y m) e.date)).map
      (fun e => e.amount)).sum = _
    rw [hfe]
  · show ((db.incomes.filter (fun i => monthKeyMatches (formatYM y m) i.date)).map
      (fun i => i.amount)).sum = _
    rw [hfi]
  · intro i cat a
    simp only [income_expenses_summary_monthly, List.filter_append]
    simp [hpred]


theorem listLtB_irrefl (l : List Char) : listLtB l l = false := by
  induction l with
  | nil => rfl
  | cons a t ih => simp [listLtB, ih]

theorem listLtB_trans (a b c : List Char) (h1 : listLtB a b = true)
    (h2 : listLtB b c = true) : listLtB a c = true := by
  induction a generalizing b c with
  | nil =>
    cases b with
    | nil => simp [listLtB] at h1
    | cons b0 bt =>
      cases c with
      | nil => simp [listLtB] at h2
      | cons c0 ct => rfl
  | cons a0 at' ih =>
    cases b with
    | nil => simp [listLtB] at h1
    | cons b0 bt =>
      cases c with
      | nil => simp [listLtB] at h2
      | cons c0 ct =>
        simp only [listLtB] at h1 h2 ⊢
        split_ifs at h1 h2 ⊢ <;>
          first
            | rfl
            | omega
            | (exfalso; omega)
            | exact ih bt ct h1 h2
            | simp_all

theorem listLtB_eq_of_not (a b : List Char) (h1 : listLtB a b = false)
    (h2 : listLtB b a = false) : a = b := by
  induction a generalizing b with
  | nil =>
    cases b with
    | nil => rfl
    | cons b0 bt => simp [listLtB] at h1
  | cons a0 at' ih =>
    cases b with
    | nil => simp [listLtB] at h2
    | cons b0 bt =>
      simp only [listLtB] at h1 h2
      split_ifs at h1 h2 <;> try simp_all
      exact ⟨char_eq_iff_toNat a0 b0 |>.mpr (by omega), ih bt h1 h2⟩

theorem strLtB_irrefl (s : String) : strLtB s s = false := listLtB_irrefl s.data

theorem strLtB_trans (s t u : String) (h1 : strLtB s t = true) (h2 : strLtB t u = true) :
    strLtB s u = true := listLtB_trans s.data t.data u.data h1 h2

theorem strLtB_eq_of_not (s t : String) (h1 : strLtB s t = false)
    (h2 : strLtB t s = false) : s = t := by
  rcases s with ⟨ls⟩
  rcases t with ⟨lt'⟩
  exact congrArg String.mk (listLtB_eq_of_not ls lt' h1 h2)

theorem strLtB_of_ne_not (k k0 : String) (hne : ¬ (k == k0) = true)
    (hnlt : ¬ strLtB k k0 = true) : strLtB k0 k = true := by
  by_contra h
  have := strLtB_eq_of_not k k0 (Bool.not_eq_true _ |>.mp hnlt) (Bool.not_eq_true _ |>.mp h)
  rw [this] at hne
  simp at hne

theorem insertTrend_keys (k : String) (a : ℚ) (acc : List (String × ℚ)) (k' : String) :
    (∃ p ∈ insertTrend k a acc, p.1 = k') ↔ (k' = k ∨ ∃ p ∈ acc, p.1 = k') := by
  induction acc with
  | nil => simp [insertTrend, eq_comm]
  | cons hd t ih =>
    obtain ⟨k0, s0⟩ := hd
    simp only [insertTrend]
    by_cases he : (k == k0) = true
    · rw [if_pos he]
      have hk : k = k0 := by simpa using he
      subst hk
      first
        | (simp [List.mem_cons]; tauto)
        | simp [List.mem_cons]
    · by_cases hlt : strLtB k k0 = true
      · rw [if_neg he, if_pos hlt]
        first
          | (simp [List.mem_cons, eq_comm]; tauto)
          | simp [List.mem_cons, eq_comm]
      · rw [if_neg he, if_neg hlt]
        simp only [List.mem_cons] at ih ⊢
        constructor
        · rintro ⟨p, hp | hp, hpe⟩
          · subst hp
            tauto
          · rcases ih.mp ⟨p, hp, hpe⟩ with h | ⟨q, hq, hqe⟩
            · exact Or.inl h
            · exact Or.inr ⟨q, Or.inr hq, hqe⟩
        · rintro (h | ⟨q, hq | hq, hqe⟩)
          · rcases ih.mpr (Or.inl h) with ⟨p, hp, hpe⟩
            exact ⟨p, Or.inr hp, hpe⟩
          · subst hq
            exact ⟨_, Or.inl rfl, hqe⟩
          · rcases ih.mpr (Or.inr ⟨q, hq, hqe⟩) with ⟨p, hp, hpe⟩
            exact ⟨p, Or.inr hp, hpe⟩

theorem insertTrend_sorted (k : String) (a : ℚ) (acc : List (String × ℚ))
    (h : acc.Pairwise (fun p q => strLtB p.1 q.1 = true)) :
    (insertTrend k a acc).Pairwise (fun p q => strLtB p.1 q.1 = true) := by
  induction acc with
  | nil => simp [insertTrend]
  | cons hd t ih =>
    obtain ⟨k0, s0⟩ := hd
    rw [List.pairwise_cons] at h
    obtain ⟨hhd, ht⟩ := h
    simp only [insertTrend]
    by_cases he : (k == k0) = true
    · rw [if_pos he]
      exact List.Pairwise.cons hhd ht
    · by_cases hlt : strLtB k k0 = true
      · rw [if_neg he, if_pos hlt]
        refine List.Pairwise.cons ?_ (List.Pairwise.cons hhd ht)
        intro q hq
        rcases List.mem_cons.mp hq with rfl | hq'
        · exact hlt
        · exact strLtB_trans _ _ _ hlt (hhd q hq')
      · rw [if_neg he, if_neg hlt]
        refine List.Pairwise.cons ?_ (ih ht)
        intro q hq
        rcases (insertTrend_keys k a t q.1).mp ⟨q, hq, rfl⟩ with hqk | ⟨p, hp, hpe⟩
        · rw [hqk]
          exact strLtB_of_ne_not k k0 he hlt
        · rw [← hpe]
          exact hhd p hp


theorem sumForKey_insertTrend (k : String) (a : ℚ) (acc : List (String × ℚ)) (k' : String) :
    sumForKey (insertTrend k a acc) k' =
      sumForKey acc k' + (if (k == k') = true then a else 0) := by
  induction acc with
  | nil =>
    by_cases h : (k == k') = true <;>
      simp [sumForKey, insertTrend, List.filter_cons, h]
  | cons hd t ih =>
    obtain ⟨k0, s0⟩ := hd
    simp only [insertTrend]
    by_cases he : (k == k0) = true
    · rw [if_pos he]
      have hk : k = k0 := by simpa using he
      subst hk
      by_cases h' : (k == k') = true <;>
        simp [sumForKey, List.filter_cons, h'] <;> ring
    · by_cases hlt : strLtB k k0 = true
      · rw [if_neg he, if_pos hlt]
        by_cases h' : (k == k') = true <;> by_cases h0 : (k0 == k') = true <;>
          simp [sumForKey, List.filter_cons, h', h0] <;> ring
      · rw [if_neg he, if_neg hlt]
        simp only [sumForKey, List.filter_cons] at ih ⊢
        by_cases h0 : (k0 == k') = true <;> simp [h0, ih] <;> ring

theorem sumForKey_zero (l : List (String × ℚ)) (k : String)
    (h : ∀ p ∈ l, (p.1 == k) = false) : sumForKey l k = 0 := by
  have : l.filter (fun p => p.1 == k) = [] := by
    rw [List.filter_eq_nil_iff]
    intro p hp
    simp [h p hp]
  simp [sumForKey, this]

theorem sorted_mem_sumForKey (T : List (String × ℚ))
    (hs : T.Pairwise (fun p q => strLtB p.1 q.1 = true)) (p : String × ℚ) (hp : p ∈ T) :
    sumForKey T p.1 = p.2 := by
  induction T with
  | nil => cases hp
  | cons hd t ih =>
    rw [List.pairwise_cons] at hs
    obtain ⟨hhd, ht⟩ := hs
    rcases List.mem_cons.mp hp with rfl | hp'
    · have hz : ∀ q ∈ t, (q.1 == p.1) = false := by
        intro q hq
        have hlt := hhd q hq
        rw [beq_eq_false_iff_ne]
        intro hqe
        rw [hqe] at hlt
        exact absurd hlt (by simp [strLtB_irrefl])
      have : sumForKey (p :: t) p.1 = p.2 + sumForKey t p.1 := by
        simp [sumForKey, List.filter_cons]
      rw [this, sumForKey_zero t p.1 hz]
      ring
    · have hne : (hd.1 == p.1) = false := by
        have hlt := hhd p hp'
        rw [beq_eq_false_iff_ne]
        intro he
        rw [he] at hlt
        exact absurd hlt (by simp [strLtB_irrefl])
      have : sumForKey (hd :: t) p.1 = sumForKey t p.1 := by
        simp [sumForKey, List.filter_cons, hne]
      rw [this, ih ht hp']

theorem trendsAux_sorted (E : List ExpenseRow) :
    (E.foldr (fun e acc =>
      match strftimeYM e.date with
      | some k => insertTrend k e.amount acc
      | none => acc) []).Pairwise (fun p q => strLtB p.1 q.1 = true) := by
  induction E with
  | nil => simp
  | cons e t ih =>
    simp only [List.foldr_cons]
    cases heq : strftimeYM e.date with
    | none => exact ih
    | some k => exact insertTrend_sorted k e.amount _ ih

theorem trendsAux_sum (E : List ExpenseRow) (k : String) :
    sumForKey (E.foldr (fun e acc =>
      match strftimeYM e.date with
      | some k0 => insertTrend k0 e.amount acc
      | none => acc) []) k =
    ((E.filter (fun e => strftimeYM e.date == some k)).map (fun e => e.amount)).sum := by
  induction E with
  | nil => simp [sumForKey]
  | cons e t ih =>
    simp only [List.foldr_cons, List.filter_cons]
    cases heq : strftimeYM e.date with
    | none =>
      have hne : (strftimeYM e.date == some k) = false := by rw [heq]; rfl
      simp [hne, ih]
    | some k0 =>
      rw [sumForKey_insertTrend]
      rw [show ((some k0 == some k) : Bool) = (k0 == k) from rfl, ih]
      by_cases hk : (k0 == k) = true <;> simp [hk] <;> ring

theorem trendsAux_keys (E : List ExpenseRow) (k : String) :
    (∃ p ∈ E.foldr (fun e acc =>
      match strftimeYM e.date with
      | some k0 => insertTrend k0 e.amount acc
      | none => acc) [], p.1 = k) ↔ (∃ e ∈ E, strftimeYM e.date = some k) := by
  induction E with
  | nil => simp
  | cons e t ih =>
    simp only [List.foldr_cons]
    cases heq : strftimeYM e.date with
    | none =>
      rw [ih]
      simp only [List.mem_cons]
      constructor
      · rintro ⟨e', he', hke⟩
        exact ⟨e', Or.inr he', hke⟩
      · rintro ⟨e', he' | he', hke⟩
        · subst he'
          rw [heq] at hke
          cases hke
        · exact ⟨e', he', hke⟩
    | some k0 =>
      rw [insertTrend_keys, ih]
      simp only [List.mem_cons]
      constructor
      · rintro (rfl | ⟨e', he', hke⟩)
        · exact ⟨e, Or.inl rfl, heq⟩
        · exact ⟨e', Or.inr he', hke⟩
      · rintro ⟨e', he' | he', hke⟩
        · subst he'
          rw [heq] at hke
          injection hke with hke
          exact Or.inl hke.symm
        · exact Or.inr ⟨e', he', hke⟩

/-- C8: `trends_for_tracking_spending` groups every expense row by its
truncated year-month key and emits one (key, sum) row per distinct key, in
strictly ascending lexicographic key order, each carrying the sum of exactly
the rows with that key. -/
theorem c8_monthly_trend_sorted_groups (db : DB) (hd : ∀ e ∈ db.expenses, specCanonicalDate e.date = true) :
    (trends_for_tracking_spending db).Pairwise (fun p q => strLtB p.1 q.1 = true) ∧
    (∀ e ∈ db.expenses, ∃ p ∈ trends_for_tracking_spending db,
      strftimeYM e.date = some p.1) ∧
    (∀ k : String, (∃ p ∈ trends_for_tracking_spending db, p.1 = k) ↔
      (∃ e ∈ db.expenses, strftimeYM e.date = some k)) ∧
    (∀ p ∈ trends_for_tracking_spending db,
      p.2 = ((db.expenses.filter (fun e => strftimeYM e.date == some p.1)).map
        (fun e => e.amount)).sum) := by
  simp only [trends_for_tracking_spending]
  refine ⟨trendsAux_sorted db.expenses, ?_, fun k => trendsAux_keys db.expenses k, ?_⟩
  · intro e he
    have hk := strftimeYM_of_canonical e.date (hd e he)
    have hex : ∃ e' ∈ db.expenses, strftimeYM e'.date = some ⟨e.date.data.take 7⟩ :=
      ⟨e, he, hk⟩
    obtain ⟨p, hp, hpk⟩ := (trendsAux_keys db.expenses ⟨e.date.data.take 7⟩).mpr hex
    exact ⟨p, hp, by rw [hk, hpk]⟩
  · intro p hp
    have hs := trendsAux_sorted db.expenses
    have hsum := sorted_mem_sumForKey _ hs p hp
    rw [← hsum, trendsAux_sum]

/-- C5 (counterexample): the single-digit date 2024-3-5 passes `validate_date`
although it does not match the canonical 4-2-2 digit format the claim
requires. -/
theorem c5_counterexample :
    validate_date ("2024-3-5") = true ∧ specCanonicalDate ("2024-3-5") = false := by
  decide

/-- Witness for C2: an expense budget of 50 for food then an income budget of
80 for the same name leaves one budget row, reclassified and revalued. -/
theorem c2_witness :
    (set_budget_for_category dbBoth ("food") 50 ("expense") false).1 = .ok ∧
    (set_budget_for_category (set_budget_for_category dbBoth ("food") 50 ("expense")
      false).2 ("food") 80 ("income") false).1 = .ok ∧
    ((set_budget_for_category (set_budget_for_category dbBoth ("food") 50 ("expense")
        false).2 ("food") 80 ("income") false).2.budgets.filter
      (fun b => b.name == pyNorm ("food")) = [⟨pyNorm ("food"), 80, pyNorm ("income")⟩]) ∧
    ((set_budget_for_category (set_budget_for_category dbBoth ("food") 50 ("expense")
        false).2 ("food") 80 ("income") false).2.budgets.filter
      (fun b => !(b.name == pyNorm ("food"))) =
      dbBoth.budgets.filter (fun b => !(b.name == pyNorm ("food")))) :=
  c2_set_budget_upserts_by_name dbBoth ("food") 50 80 ("expense") ("income") false false
    (by norm_num) (by norm_num) (Or.inr (by decide)) (Or.inl (by decide)) (by decide)
    (by decide)

/-- Witness for C3: deleting the food expenses removes exactly the food rows;
deleting a category with no rows reports nothing-to-delete; the rent row
survives. -/
theorem c3_witness :
    (delete_spending_type dbDel ("food") true =
      (.ok, { dbDel with expenses :=
        dbDel.expenses.filter (fun e => !(spendingTypeMatches (pyNorm ("food")) e)) })) ∧
    (delete_spending_type dbDel ("misc") true = (.nothingToDelete, dbDel)) ∧
    ((⟨2, "2024-03-06", "rent", 7⟩ : ExpenseRow) ∈
        (delete_spending_type dbDel ("food") true).2.expenses ↔
      ((⟨2, "2024-03-06", "rent", 7⟩ : ExpenseRow) ∈ dbDel.expenses ∧
        spendingTypeMatches (pyNorm ("food")) ⟨2, "2024-03-06", "rent", 7⟩ = false)) :=
  ⟨(c3_delete_expenses_by_category dbDel ("food") (by decide)).2.1 (by decide),
    (c3_delete_expenses_by_category dbDel ("misc") (by decide)).1 (by decide),
    (c3_delete_expenses_by_category dbDel ("food") (by decide)).2.2 _⟩

/-- Witness for C6 on the spec's scenario-A store with reference month
2024-03. -/
theorem c6_witness :
    ((income_expenses_summary_monthly dbSum 2024 3).expenses =
      ((dbSum.expenses.filter (fun e => String.mk (e.date.data.take 7) == formatYM 2024
        3)).map (fun e => e.amount)).sum) ∧
    ((income_expenses_summary_monthly dbSum 2024 3).income =
      ((dbSum.incomes.filter (fun i => String.mk (i.date.data.take 7) == formatYM 2024
        3)).map (fun i => i.amount)).sum) ∧
    ((income_expenses_summary_monthly dbSum 2024 3).balance =
      (income_expenses_summary_monthly dbSum 2024 3).income -
        (income_expenses_summary_monthly dbSum 2024 3).expenses) ∧
    (income_expenses_summary_monthly
        { dbSum with expenses := dbSum.expenses ++ [⟨3, firstOfNextMonth 2024 3, "food", 9⟩] }
        2024 3 = income_expenses_summary_monthly dbSum 2024 3) := by
  have h := c6_monthly_summary_by_year_month dbSum 2024 3 (by norm_num) (by norm_num)
    (by norm_num) (by norm_num) (by decide) (by decide)
  exact ⟨h.1, h.2.1, h.2.2.1, h.2.2.2 3 ("food") 9⟩

/-- Witness for C7: adding garden as an expense category succeeds, adding it
again is a duplicate, and adding it to income then expense both succeed. -/
theorem c7_witness :
    (add_expense_category dbCats ("garden") =
      (.ok, { dbCats with expenseCats := dbCats.expenseCats ++ [⟨pyNorm ("garden"), none⟩] })) ∧
    (add_expense_category (add_expense_category dbCats ("garden")).2 ("garden") =
      (.duplicate, (add_expense_category dbCats ("garden")).2)) ∧
    ((add_income_category dbCats ("garden") ("")).1 = .ok ∧
      (add_expense_category (add_income_category dbCats ("garden") ("")).2 ("garden")).1 =
        .ok) := by
  have h := c7_category_namespaces dbCats ("garden") ("") (by decide)
  exact ⟨h.1 (by decide), h.2.2.2.2.1 (by decide), h.2.2.2.2.2 (by decide) (by decide)⟩

/-- Witness for C8 on a two-month store: sorted output, the March row lands
in a group, the key iff holds at 2024-03, and the March group carries sum
50. -/
theorem c8_witness :
    (trends_for_tracking_spending dbTrend).Pairwise (fun p q => strLtB p.1 q.1 = true) ∧
    (∃ p ∈ trends_for_tracking_spending dbTrend, strftimeYM ("2024-03-01") = some p.1) ∧
    ((∃ p ∈ trends_for_tracking_spending dbTrend, p.1 = ("2024-03")) ↔
      (∃ e ∈ dbTrend.expenses, strftimeYM e.date = some ("2024-03"))) ∧
    (((("2024-03") : String), (50 : ℚ)).2 =
      ((dbTrend.expenses.filter (fun e => strftimeYM e.date ==
        some ((("2024-03") : String), (50 : ℚ)).1)).map (fun e => e.amount)).sum) := by
  have h := c8_monthly_trend_sorted_groups dbTrend (by decide)
  refine ⟨h.1, ?_, h.2.2.1 ("2024-03"), h.2.2.2 (("2024-03"), 50) (by decide)⟩
  have hm := h.2.1 ⟨1, "2024-03-01", "food", 50⟩ (by decide)
  simpa using hm
